import Mathlib

/-!
Verification development for the QMD retrieval core (ANEL repository).

Each Python function under scrutiny is shallow-embedded as an executable
Lean definition, translated directly from the source:

* `Chunker` — `src/qmd/store/chunker.py` (`chunk_document`), with an explicit
  fuel parameter standing for the number of loop iterations, since the
  Python `while` loop does not terminate on all inputs.
* `QmdStore` — `src/qmd/store/store.py` (`add_document`, `remove_document`,
  `bm25_search`, `get_stats`, `hybrid_search`, `vector_search`,
  `_normalize_vector`, `_cosine_similarity`), with the SQLite tables
  modelled as lists of rows and statements SQLite rejects modelled as
  `Except.error` (SQLite refuses UPSERT on FTS5 virtual tables, so
  `add_document`'s FTS insert raises on every call).
* `ModStore` — `src/store/mod.py` (`_rrf_fusion`, `_rerank`,
  `bm25_search`, `hybrid_search`), with Python's insertion-ordered `dict`
  modelled as an association list; `bm25_search`'s SELECT references
  columns `documents_fts` does not have, so it (and `hybrid_search`,
  which calls it unguarded) raises on every call.
* `Router` — `src/llm/router.py` (`Router.embed`, `Router.rerank`), with
  provider attempts modelled as `Except` values, and `QmdRouter` — the
  second router implementation in `qmd/llm/router.py`, which has no
  runtime try/except around a constructed local provider.

Strings are modelled as `List Char`, floats as `ℚ`, and `math.sqrt` as an
abstract parameter where its exact value is irrelevant to the property.
-/

namespace Chunker

/-- A document chunk, mirroring the `Chunk` dataclass of `chunker.py`:
`seq` is the emission index, `pos` the start offset, `text` the slice. -/
structure Chunk where
  seq : Nat
  pos : Nat
  text : List Char
  deriving Repr, DecidableEq

/-- `text[i] in '.!?'` -/
def isSentenceEnd (c : Char) : Bool := c = '.' || c = '!' || c = '?'

/-- `text[i+1] in ' \n'` -/
def isBreakFollow (c : Char) : Bool := c = ' ' || c = '\n'

/-- The loop-body test `text[i] in '.!?' and i + 1 < len(text) and
text[i + 1] in ' \n'` from `chunk_document`. Out-of-range reads use a
default character that fails the test, matching the guarded Python access. -/
def isBoundaryAt (text : List Char) (i : Nat) : Bool :=
  isSentenceEnd (text.getD i 'x') && decide (i + 1 < text.length)
    && isBreakFollow (text.getD (i + 1) 'x')

/-- `for i in range(e - 1, lo, -1): if <boundary at i>: return i` —
the backward sentence-boundary scan of `chunk_document`, returning the
largest qualifying index in `(lo, e-1]`, if any. -/
def findBreak (text : List Char) (lo e : Nat) : Option Nat :=
  ((List.range' (lo + 1) (e - 1 - lo)).reverse).find? (fun i => isBoundaryAt text i)

/-- The end offset one loop iteration of `chunk_document` cuts at:
`end = pos + chunk_size` clamped to `len(text)`, moved back to just after
a sentence terminator when the backward scan (which runs only while
`end < len(text)`) finds one. -/
def chunkEnd (text : List Char) (chunk_size pos : Nat) : Nat :=
  if pos + chunk_size < text.length then
    match findBreak text (max (pos + chunk_size - 200) pos) (pos + chunk_size) with
    | some i => i + 1
    | none => min (pos + chunk_size) text.length
  else min (pos + chunk_size) text.length

/-- One-for-one translation of the `while pos < len(text)` loop of
`chunk_document`, with `fuel` bounding the number of iterations (the
Python loop has no such bound; `none` means the loop was still running
when the fuel ran out).  Each iteration cuts at `chunkEnd`, emits the
chunk `text[pos:end]`, and continues from `end - overlap` unless that
start would be `≤ 0`. -/
def chunkLoop (text : List Char) (chunk_size overlap : Nat) :
    Nat → Nat → Nat → List Chunk → Option (List Chunk)
  | 0, _, _, _ => none
  | fuel + 1, pos, seq, acc =>
    if pos < text.length then
      let e := chunkEnd text chunk_size pos
      let c : Chunk := ⟨seq, pos, (text.drop pos).take (e - pos)⟩
      if e ≤ overlap then some (acc ++ [c])
      else chunkLoop text chunk_size overlap fuel (e - overlap) (seq + 1) (acc ++ [c])
    else some acc

/-- `chunk_document(text, chunk_size, overlap)` from `chunker.py`: one
whole-text chunk when `len(text) <= chunk_size`, otherwise the chunking
loop started at offset 0 (bounded by `fuel` iterations). -/
def chunk_document (fuel : Nat) (text : List Char) (chunk_size overlap : Nat) :
    Option (List Chunk) :=
  if text.length ≤ chunk_size then some [⟨0, 0, text⟩]
  else chunkLoop text chunk_size overlap fuel 0 0 []

/-- A position `j` of the source text is covered by some returned chunk. -/
def covers (cs : List Chunk) (j : Nat) : Prop :=
  ∃ c ∈ cs, c.pos ≤ j ∧ j < c.pos + c.text.length

instance (cs : List Chunk) (j : Nat) : Decidable (covers cs j) := by
  unfold covers; infer_instance

/-- The failing input for the termination claim: three characters,
`chunk_size = 2`, `overlap = 1`. -/
def exNonTermText : List Char := ['x', 'x', 'x']

lemma chunkLoop_stuck (f s : Nat) (a : List Chunk) :
    chunkLoop exNonTermText 2 1 f 2 s a = none := by
  induction f generalizing s a with
  | zero => rfl
  | succ n ih =>
    show chunkLoop exNonTermText 2 1 (n + 1) 2 s a = none
    rw [chunkLoop]
    simp only [exNonTermText, List.length_cons, List.length_nil]
    norm_num
    exact ih (s + 1) _

/-- Each loop iteration ends strictly past its start: the boundary scan
only returns indices above `max (pos + chunk_size - 200) pos`, and the raw
cut is at `min (pos + chunk_size) (len text)` with `chunk_size ≥ 1`. -/
lemma findBreak_bounds {text : List Char} {lo e i : Nat}
    (h : findBreak text lo e = some i) : lo + 1 ≤ i ∧ i ≤ e - 1 := by
  have hm := List.mem_of_find?_eq_some h
  rw [List.mem_reverse, List.mem_range'] at hm
  omega

lemma chunkEnd_bounds {cs pos : Nat} {text : List Char}
    (hcs : 1 ≤ cs) (hp : pos < text.length) :
    pos < chunkEnd text cs pos ∧ chunkEnd text cs pos ≤ text.length := by
  unfold chunkEnd
  by_cases h : pos + cs < text.length
  · rw [if_pos h]
    cases hfb : findBreak text (max (pos + cs - 200) pos) (pos + cs) with
    | none =>
      show pos < min (pos + cs) text.length ∧ min (pos + cs) text.length ≤ text.length
      omega
    | some i =>
      have := findBreak_bounds hfb
      show pos < i + 1 ∧ i + 1 ≤ text.length
      omega
  · rw [if_neg h]
    omega

lemma chunkLoop_succ (text : List Char) (cs ov n pos seq : Nat) (acc : List Chunk) :
    chunkLoop text cs ov (n + 1) pos seq acc =
      if pos < text.length then
        if chunkEnd text cs pos ≤ ov then
          some (acc ++ [⟨seq, pos, (text.drop pos).take (chunkEnd text cs pos - pos)⟩])
        else
          chunkLoop text cs ov n (chunkEnd text cs pos - ov) (seq + 1)
            (acc ++ [⟨seq, pos, (text.drop pos).take (chunkEnd text cs pos - pos)⟩])
      else some acc := rfl

lemma chunkLoop_cover {cs : Nat} (hcs : 1 ≤ cs) (text : List Char) :
    ∀ fuel pos seq acc, pos < text.length → text.length - pos < fuel →
      ∃ res, chunkLoop text cs 0 fuel pos seq acc = some res ∧
        (∀ c ∈ acc, c ∈ res) ∧
        (∀ j, pos ≤ j → j < text.length → covers res j) := by
  intro fuel
  induction fuel with
  | zero => intro pos seq acc hp hf; omega
  | succ n ih =>
    intro pos seq acc hp hf
    obtain ⟨he1, he2⟩ := chunkEnd_bounds hcs hp
    rw [chunkLoop_succ, if_pos hp, if_neg (by omega : ¬ chunkEnd text cs pos ≤ 0)]
    set e := chunkEnd text cs pos with he
    set c : Chunk := ⟨seq, pos, (text.drop pos).take (e - pos)⟩ with hc
    have hcpos : c.pos = pos := rfl
    have hclen : c.text.length = e - pos := by
      show ((text.drop pos).take (e - pos)).length = e - pos
      rw [List.length_take, List.length_drop]
      omega
    by_cases hend : e - 0 < text.length
    · obtain ⟨res, hres, hacc, hcov⟩ :=
        ih (e - 0) (seq + 1) (acc ++ [c]) hend (by omega)
      refine ⟨res, hres, fun d hd => hacc d (List.mem_append_left _ hd),
        fun j hj hjl => ?_⟩
      by_cases hje : e ≤ j
      · exact hcov j (by omega) hjl
      · exact ⟨c, hacc c (List.mem_append_right _ (by simp)),
          by rw [hcpos]; omega, by rw [hcpos, hclen]; omega⟩
    · obtain ⟨m, rfl⟩ : ∃ m, n = m + 1 := ⟨n - 1, by omega⟩
      rw [chunkLoop_succ, if_neg hend]
      exact ⟨acc ++ [c], rfl, fun d hd => List.mem_append_left _ hd,
        fun j hj hjl => ⟨c, List.mem_append_right _ (by simp),
          by rw [hcpos]; omega, by rw [hcpos, hclen]; omega⟩⟩

/-- The concrete input refuting C3's coverage: an early sentence boundary
(`"ab. "`) with `chunk_size = 10`, `overlap = 9` makes the first cut at
offset 3, so the next start `3 - 9 ≤ 0` stops the loop after one chunk. -/
def exGapText : List Char := ['a', 'b', '.', ' '] ++ List.replicate 30 'x'

/-- C3 counterexample: on `exGapText` (34 characters), `chunk_size = 10`,
`overlap = 9`, `chunk_document` terminates with the single chunk
`[0, 3)` — position 5 of the text is covered by no chunk, so the claimed
gap-free coverage of `[0, len text)` fails. -/
theorem chunk_document_coverage_cex :
    chunk_document 5 exGapText 10 9 = some [⟨0, 0, ['a', 'b', '.']⟩]
    ∧ 5 < exGapText.length
    ∧ ¬ covers [⟨0, 0, ['a', 'b', '.']⟩] 5 := by
  refine ⟨by decide, by decide, by decide⟩

/-- C3 amended: when `len text ≤ chunk_size` the result is exactly one
chunk at `pos = 0` holding the whole text (any overlap); and for
`overlap = 0` (with `chunk_size ≥ 1` and enough fuel) the loop terminates
and the returned chunk intervals cover every index of `[0, len text)`.
For `overlap > 0` and `len text > chunk_size` the coverage claim fails as
`chunk_document_coverage_cex` and `chunk_document_nonterminating` show. -/
theorem chunk_document_coverage_amended (text : List Char) (cs fuel : Nat)
    (hcs : 1 ≤ cs) (hlen : 0 < text.length) (hfuel : text.length < fuel) :
    (∀ ov, text.length ≤ cs → chunk_document fuel text cs ov = some [⟨0, 0, text⟩])
    ∧ ∃ res, chunk_document fuel text cs 0 = some res ∧
        ∀ j, j < text.length → covers res j := by
  constructor
  · intro ov hle
    rw [chunk_document, if_pos hle]
  · by_cases hle : text.length ≤ cs
    · refine ⟨[⟨0, 0, text⟩], by rw [chunk_document, if_pos hle], fun j hj => ?_⟩
      exact ⟨⟨0, 0, text⟩, by simp, by simp, by simpa using hj⟩
    · rw [chunk_document, if_neg hle]
      obtain ⟨res, hres, _, hcov⟩ :=
        chunkLoop_cover hcs text fuel 0 0 [] hlen (by omega)
      exact ⟨res, hres, fun j hj => hcov j (by omega) hj⟩

/-- Witness for the amended C3 on a concrete input. -/
theorem chunk_document_coverage_amended_witness :
    ((∀ ov, (['a', 'b', 'c'] : List Char).length ≤ 2 →
        chunk_document 4 ['a', 'b', 'c'] 2 ov = some [⟨0, 0, ['a', 'b', 'c']⟩])
      ∧ ∃ res, chunk_document 4 ['a', 'b', 'c'] 2 0 = some res ∧
          ∀ j, j < (['a', 'b', 'c'] : List Char).length → covers res j) :=
  chunk_document_coverage_amended ['a', 'b', 'c'] 2 4 (by decide) (by decide) (by decide)

/-- C2: on `text = "xxx"`, `chunk_size = 2`, `overlap = 1` the loop of
`chunk_document` reaches `pos = 2` and then recomputes `end = 3`,
`pos = end - overlap = 2` forever: no amount of fuel completes it, i.e.
the Python loop does not terminate, contradicting the claimed
termination and strictly increasing start offsets. -/
theorem chunk_document_nonterminating :
    ∀ fuel : Nat, chunk_document fuel exNonTermText 2 1 = none := by
  intro fuel
  rw [chunk_document]
  simp only [exNonTermText, List.length_cons, List.length_nil]
  norm_num
  match fuel with
  | 0 => rfl
  | 1 => rfl
  | 2 => rfl
  | (n + 3) =>
    rw [chunkLoop]
    norm_num [findBreak, isBoundaryAt]
    rw [chunkLoop]
    norm_num
    exact chunkLoop_stuck (n + 1) 2 _

end Chunker

/-- Errors raised by the SQLite layer (`sqlite3.OperationalError`). -/
inductive SqlError
  | operational
  deriving Repr, DecidableEq

namespace QmdStore

/-- `SearchResult` dataclass of `store.py`. Scores are modelled as `ℚ`. -/
structure SearchResult where
  doc_id : String
  path : String
  collection : String
  score : ℚ
  lines : Nat
  title : String
  hash : String
  deriving Repr, DecidableEq

/-- `SearchOptions` dataclass of `store.py` (`all` selects cross-collection
search; `collection = none` models Python `None`). -/
structure SearchOptions where
  limit : Nat
  min_score : ℚ
  collection : Option String
  all : Bool
  deriving Repr, DecidableEq

/-- One row of the `documents` table (`hash` is declared `UNIQUE`; `doc`
holds the raw body; timestamps are abstract ticks). -/
structure DocRow where
  id : Nat
  collection : String
  path : String
  title : String
  hash : String
  doc : String
  created_at : Nat
  modified_at : Nat
  active : Bool
  deriving Repr, DecidableEq

/-- One row of the `documents_fts` FTS5 table (`rowid` auto-assigned). -/
structure FtsRow where
  rowid : Nat
  filepath : String
  title : String
  body : String
  deriving Repr, DecidableEq

/-- One row of the `content_vectors` table. -/
structure VecRow where
  hash : String
  seq : Nat
  embedding : List ℚ
  model : String
  deriving Repr, DecidableEq

/-- The SQLite database owned by one `Store`: the three tables the claims
touch plus the auto-increment counters for `documents.id` and the FTS
rowid. -/
structure StoreDB where
  documents : List DocRow
  documents_fts : List FtsRow
  content_vectors : List VecRow
  nextId : Nat
  nextRowid : Nat
  deriving Repr, DecidableEq

def emptyDB : StoreDB := ⟨[], [], [], 1, 1⟩

/-- The first statement of `Store.add_document`: `INSERT INTO documents
... ON CONFLICT(hash) DO UPDATE SET path = excluded.path, title =
excluded.title, modified_at = excluded.modified_at, active = 1`
(`collection`, `doc` and `created_at` are not updated).  `documents.hash`
is declared `UNIQUE`, so the conflict target is the content hash. -/
def documents_upsert (db : StoreDB) (collection path title doc_hash content : String)
    (now : Nat) : StoreDB :=
  if db.documents.any (fun r => r.hash = doc_hash) then
    { db with
        documents := db.documents.map (fun r =>
          if r.hash = doc_hash then
            { r with path := path, title := title, modified_at := now, active := true }
          else r) }
  else
    { db with
        documents := db.documents ++
          [⟨db.nextId, collection, path, title, doc_hash, content, now, now, true⟩],
        nextId := db.nextId + 1 }

/-- `Store.add_document`: `H` abstracts `_hash_content` (SHA-256 of the
body).  The documents upsert executes inside the open transaction, but
the next statement, `INSERT INTO documents_fts (filepath, title, body)
VALUES (?, ?, ?) ON CONFLICT(rowid) DO UPDATE SET ...`, is an UPSERT
targeting the `documents_fts` FTS5 virtual table, and SQLite rejects
UPSERT on virtual tables: the statement fails with
`OperationalError("UPSERT not implemented for virtual table")` before
touching any row.  The exception propagates out of `add_document`,
`self.conn.commit()` is never reached, and the pending documents write is
not committed — the stored state remains the input `db`, every call
fails, and no hash is ever returned. -/
def add_document (H : String → String) (db : StoreDB)
    (collection path title content : String) (now : Nat) :
    Except SqlError (StoreDB × String) :=
  let doc_hash := H content
  let _pending := documents_upsert db collection path title doc_hash content now
  Except.error SqlError.operational

/-- `Store.remove_document`: `UPDATE documents SET active = 0 WHERE
hash = ?` — nothing else is touched. -/
def remove_document (db : StoreDB) (doc_hash : String) : StoreDB :=
  { db with
      documents := db.documents.map (fun r =>
        if r.hash = doc_hash then { r with active := false } else r) }

/-- `row['doc'].count('\n') + 1` -/
def lineCount (s : String) : Nat := (s.data.filter (fun c => c = '\n')).length + 1

/-- `Store.bm25_search`: the FTS5 `MATCH` predicate and the `bm25()` cost
of a matching row are abstracted as parameters (`matchP`, `bm25f`) since
they are internals of SQLite; the query joins matching FTS rows to
`documents` on `d.path = f.filepath`, keeps `active = 1` rows (and the
requested collection unless `opts.all`), orders by ascending bm25 cost
(stable, as a sort must be) and applies `LIMIT`. -/
def bm25_search (matchP : FtsRow → Bool) (bm25f : FtsRow → ℚ)
    (db : StoreDB) (opts : SearchOptions) : List SearchResult :=
  let joined := (db.documents_fts.filter matchP).flatMap (fun f =>
    (db.documents.filter (fun d =>
        d.path = f.filepath
        && (if !opts.all then
              match opts.collection with
              | some c => d.collection = c
              | none => true
            else true)
        && d.active)).map (fun d =>
      ⟨d.collection ++ ":" ++ d.path, d.path, d.collection, bm25f f,
        lineCount d.doc, d.title, d.hash⟩))
  (joined.mergeSort (fun a b => a.score ≤ b.score)).take opts.limit

/-- `IndexStats` dataclass of `store.py`. -/
structure IndexStats where
  collection_count : Nat
  document_count : Nat
  indexed_count : Nat
  pending_count : Nat
  chunk_count : Nat
  collection_stats : List (String × Nat)
  deriving Repr, DecidableEq

/-- `Store.get_stats`: distinct active collections, active documents,
all FTS rows, all vector rows, and the per-collection active counts. -/
def get_stats (db : StoreDB) : IndexStats :=
  let active := db.documents.filter (fun r => r.active)
  { collection_count := (active.map (fun r => r.collection)).dedup.length
    document_count := active.length
    indexed_count := db.documents_fts.length
    pending_count := 0
    chunk_count := db.content_vectors.length
    collection_stats := (active.map (fun r => r.collection)).dedup.map
      (fun c => (c, (active.filter (fun r => r.collection = c)).length)) }

/-- `sum(x * x for x in v)` -/
def sumSq (v : List ℚ) : ℚ := (v.map (fun x => x * x)).sum

/-- `sum(x * y for x, y in zip(a, b))` -/
def dotProd (a b : List ℚ) : ℚ := ((a.zip b).map (fun p => p.1 * p.2)).sum

/-- `Store._normalize_vector`, with `math.sqrt` abstracted as `sq`
(instantiated below with any function vanishing exactly at 0, as the real
square root does on the non-negative `sum(x * x)`). -/
def normalize_vector (sq : ℚ → ℚ) (v : List ℚ) : List ℚ :=
  let norm := sq (sumSq v)
  if norm = 0 then v else v.map (fun x => x / norm)

/-- `Store._cosine_similarity`: `0.0` on length mismatch, `0.0` when either
norm is zero, else the normalized dot product. -/
def cosine_similarity (sq : ℚ → ℚ) (a b : List ℚ) : ℚ :=
  if a.length ≠ b.length then 0
  else
    let norm_a := sq (sumSq a)
    let norm_b := sq (sumSq b)
    if norm_a = 0 ∨ norm_b = 0 then 0
    else dotProd a b / (norm_a * norm_b)

/-- `Store.vector_search`: normalize the query vector, join
`content_vectors` to active `documents` on `hash`, score each row by
cosine similarity, keep scores `≥ min_score`, sort descending (stable)
and truncate to `limit`. -/
def vector_search (sq : ℚ → ℚ) (db : StoreDB) (query_vector : List ℚ)
    (opts : SearchOptions) : List SearchResult :=
  let qv := normalize_vector sq query_vector
  let results := db.content_vectors.flatMap (fun cv =>
    (db.documents.filter (fun d => d.hash = cv.hash && d.active)).filterMap
      (fun d =>
        let score := cosine_similarity sq qv cv.embedding
        if opts.min_score ≤ score then
          some ⟨d.collection ++ ":" ++ d.path, d.path, d.collection, score,
            0, d.title, d.hash⟩
        else none))
  (results.mergeSort (fun a b => b.score ≤ a.score)).take opts.limit

end QmdStore

namespace QmdStore

/-- C4: every `add_document` call — in particular both identical calls of
the claim's scenario — raises `OperationalError` at the FTS insert
(SQLite rejects `ON CONFLICT` UPSERT on the `documents_fts` virtual
table), commits nothing, and returns no hash; the keyword index never
receives an entry, let alone exactly one. -/
theorem add_document_fts_upsert_raises :
    (∀ (H : String → String) (db : StoreDB) (c p t b : String) (n : Nat),
        add_document H db c p t b n = Except.error SqlError.operational)
    ∧ add_document id emptyDB "demo" "a.md" "T" "hello world" 0
        = Except.error SqlError.operational
    ∧ add_document id emptyDB "demo" "a.md" "T" "hello world" 1
        = Except.error SqlError.operational
    ∧ emptyDB.documents_fts = [] :=
  ⟨fun _ _ _ _ _ _ _ => rfl, rfl, rfl, rfl⟩

/-- C5: both upserts of the shared-content scenario raise at the FTS
insert and commit nothing, so zero (not two) active Document records
exist afterwards; moreover the documents statement itself conflicts on
the UNIQUE `hash` with `DO UPDATE SET path = excluded.path`, so even
without the FTS failure the second path would re-path the single
existing row to `b.md` instead of adding a second record. -/
theorem add_document_shared_content_bug :
    add_document id emptyDB "demo" "a.md" "T" "same body" 0
        = Except.error SqlError.operational
    ∧ add_document id emptyDB "demo" "b.md" "T" "same body" 1
        = Except.error SqlError.operational
    ∧ (documents_upsert
        (documents_upsert emptyDB "demo" "a.md" "T" (id "same body") "same body" 0)
        "demo" "b.md" "T" (id "same body") "same body" 1).documents.length = 1
    ∧ (documents_upsert
        (documents_upsert emptyDB "demo" "a.md" "T" (id "same body") "same body" 0)
        "demo" "b.md" "T" (id "same body") "same body" 1).documents.map
          (fun r => r.path) = ["b.md"] := by
  refine ⟨rfl, rfl, by decide, by decide⟩

/-- A database state holding one active document, its FTS entry and one
vector record — written directly, since `add_document` itself can never
commit such a state (it raises at the FTS insert). -/
def exC6db : StoreDB :=
  ⟨[⟨1, "demo", "a.md", "T", "h1", "body text", 0, 0, true⟩],
    [⟨1, "a.md", "T", "body text"⟩], [⟨"h1", 0, [1], "m"⟩], 2, 2⟩

/-- C6: the claim's scenario is unreachable — ingestion always raises at
the FTS insert, so no document is ever ingested and indexed — and
`remove_document` itself (plain `UPDATE documents SET active = 0`) never
removes a keyword index entry: on a state holding one, the FTS table is
left unchanged (the entry survives), while `document_count` drops and
Content/Vector rows are untouched. -/
theorem remove_document_keeps_fts_bug :
    add_document id emptyDB "demo" "a.md" "T" "body text" 0
        = Except.error SqlError.operational
    ∧ (remove_document exC6db "h1").documents_fts = exC6db.documents_fts
    ∧ (remove_document exC6db "h1").documents_fts.length = 1
    ∧ (get_stats (remove_document exC6db "h1")).document_count = 0
    ∧ (remove_document exC6db "h1").content_vectors = exC6db.content_vectors := by
  refine ⟨rfl, rfl, rfl, by decide, rfl⟩

lemma filter_active_deactivate (l : List DocRow) (h : String) :
    ((l.map (fun r => if r.hash = h then { r with active := false } else r)).filter
        (fun r => r.active)).length
      = (l.filter (fun r => r.active && decide (r.hash ≠ h))).length := by
  induction l with
  | nil => rfl
  | cons r tl ih =>
    by_cases hr : r.hash = h
    · simp only [List.map_cons, List.filter_cons, hr, if_pos, ite_true]
      simpa [hr] using ih
    · by_cases ha : r.active = true
      · simp [hr, ha, List.filter_cons, ih]
      · simp [hr, List.filter_cons, ha, ih]

/-- General behavior of `remove_document` on any database state: (1) no
`bm25_search` result carries hash `h` afterwards (for any MATCH
predicate, cost function and options), (2) `get_stats` counts only
active documents with a different hash, (3) `content_vectors` rows are
untouched, (4) the FTS table is untouched — the entry is NOT removed,
inactive documents being filtered out at query time by the `active = 1`
join condition — and (5) the document body remains stored for hash `h`. -/
lemma remove_document_soft_delete (db : StoreDB) (h : String)
    (matchP : FtsRow → Bool) (bm25f : FtsRow → ℚ) (opts : SearchOptions) :
    (∀ r ∈ bm25_search matchP bm25f (remove_document db h) opts, r.hash ≠ h)
    ∧ (get_stats (remove_document db h)).document_count
        = (db.documents.filter (fun r => r.active && decide (r.hash ≠ h))).length
    ∧ (remove_document db h).content_vectors = db.content_vectors
    ∧ (remove_document db h).documents_fts = db.documents_fts
    ∧ (∀ r ∈ db.documents, r.hash = h →
        ∃ r2 ∈ (remove_document db h).documents, r2.hash = h ∧ r2.doc = r.doc) := by
  refine ⟨?_, ?_, rfl, rfl, ?_⟩
  · intro r hr
    simp only [bm25_search] at hr
    have h2 := List.mem_mergeSort.1 (List.mem_of_mem_take hr)
    rcases List.mem_flatMap.1 h2 with ⟨f, hf, hrf⟩
    rcases List.mem_map.1 hrf with ⟨d, hd, rfl⟩
    rcases List.mem_filter.1 hd with ⟨hdmem, hpred⟩
    simp only [remove_document] at hdmem
    rcases List.mem_map.1 hdmem with ⟨d0, hd0, rfl⟩
    by_cases hh : d0.hash = h
    · exfalso
      simp [hh, Bool.and_eq_true] at hpred
    · simp [hh]
  · exact filter_active_deactivate db.documents h
  · intro r hr hrh
    refine ⟨{ r with active := false }, ?_, hrh, rfl⟩
    have hmem := List.mem_map_of_mem
      (fun x => if x.hash = h then { x with active := false } else x) hr
    simp only [remove_document]
    simpa [hrh] using hmem

/-- Stable insert for descending order on search results (Python's
`list.sort(key=..., reverse=True)` is the stable descending sort, which
this insertion computes). -/
def insertResultDesc (x : SearchResult) : List SearchResult → List SearchResult
  | [] => [x]
  | y :: ys => if x.score < y.score then y :: insertResultDesc x ys else x :: y :: ys

/-- `doc_map[key].score += rrf_score` on the stored result object: add to
the (unique) entry with this key, in place. -/
def bumpScore : List (String × SearchResult) → String → ℚ → List (String × SearchResult)
  | [], _, _ => []
  | e :: rest, key, add =>
    if e.1 = key then (e.1, { e.2 with score := e.2.score + add }) :: rest
    else e :: bumpScore rest key add

/-- `Store.hybrid_search` of `store.py` (lines 277-301): the fusion map
`doc_map` is keyed by `doc_id` (`collection:path`), not by content hash.
A BM25 result not yet in the map is stored as-is — keeping its raw BM25
score — and then `doc_map[key].score += rrf_score` adds the
reciprocal-rank term on top of that stored score.  A vector result not in
the map has its score replaced by the reciprocal-rank term before being
stored.  The values are then stable-sorted descending by score.  No
top-rank bonus is applied anywhere in this function. -/
def hybrid_search (bm25_results vector_results : List SearchResult) (k : ℚ) :
    List SearchResult :=
  let doc_map := (bm25_results.enum).foldl (fun m ir =>
    let m1 := if m.any (fun e => e.1 = ir.2.doc_id) then m
              else m ++ [(ir.2.doc_id, ir.2)]
    bumpScore m1 ir.2.doc_id (1 / (k + (ir.1 : ℚ) + 1))) []
  let doc_map2 := (vector_results.enum).foldl (fun m ir =>
    if m.any (fun e => e.1 = ir.2.doc_id) then
      bumpScore m ir.2.doc_id (1 / (k + (ir.1 : ℚ) + 1))
    else m ++ [(ir.2.doc_id, { ir.2 with score := 1 / (k + (ir.1 : ℚ) + 1) })]) doc_map
  (doc_map2.map (fun e => e.2)).foldr insertResultDesc []

/-- A BM25 result carrying its raw cost, with content hash `"h"`. -/
def exSameHashBm25 : SearchResult := ⟨"demo:a.md", "a.md", "demo", -5, 3, "A", "h"⟩

/-- A vector result with the same content hash `"h"` at a different path. -/
def exSameHashVec : SearchResult := ⟨"demo:b.md", "b.md", "demo", 9 / 10, 3, "B", "h"⟩

/-- C1 counterexample: in the cited `store.py` `hybrid_search`, two
results with the same content hash but different paths are NOT merged
(the map is keyed by `collection:path`): two fused entries come back, and
the BM25 entry's fused score is `-5 + 1/61` — its raw BM25 cost plus the
reciprocal-rank term — not a pure sum of reciprocal-rank contributions. -/
theorem hybrid_search_by_doc_id_cex :
    (hybrid_search [exSameHashBm25] [exSameHashVec] 60).length = 2
    ∧ (hybrid_search [exSameHashBm25] [exSameHashVec] 60).map (fun r => r.score)
        = [1 / 61, -5 + 1 / 61]
    ∧ exSameHashBm25.hash = exSameHashVec.hash
    ∧ exSameHashBm25.path ≠ exSameHashVec.path := by
  have hne : ¬ ("demo:a.md" = "demo:b.md") := by decide
  refine ⟨?_, ?_, rfl, by decide⟩ <;>
    norm_num [hybrid_search, bumpScore, insertResultDesc, exSameHashBm25,
      exSameHashVec, List.enum_eq_enumFrom, hne]

/-- C9 counterexample: the cited `store.py` `hybrid_search` applies no
top-rank bonus at all — a single BM25 result entering with score 0 comes
back at rank 0 with fused score exactly `1/61`, not `1/61 + 0.05`. -/
theorem hybrid_search_no_bonus_cex :
    (hybrid_search [⟨"demo:a.md", "a.md", "demo", 0, 3, "A", "h"⟩] [] 60).map
        (fun r => r.score) = [1 / 61]
    ∧ (1 : ℚ) / 61 ≠ 1 / 61 + 1 / 20 := by
  constructor
  · norm_num [hybrid_search, bumpScore, insertResultDesc, List.enum_eq_enumFrom]
  · norm_num

/-- C10: the vector-similarity helpers are total on degenerate input —
`_cosine_similarity` returns 0 on length mismatch or when either vector
has zero norm (the square-root abstraction `sq` only needs to vanish
exactly at 0, as the real square root does on the non-negative sum of
squares), `_normalize_vector` returns a zero-norm vector unchanged, and
`vector_search` returns a plain list (of at most `limit` results) for any
stored embeddings. -/
theorem vector_helpers_degenerate_total (sq : ℚ → ℚ)
    (hsq : ∀ x : ℚ, sq x = 0 ↔ x = 0) :
    (∀ a b : List ℚ, (a.length ≠ b.length ∨ sumSq a = 0 ∨ sumSq b = 0) →
        cosine_similarity sq a b = 0)
    ∧ (∀ v : List ℚ, sumSq v = 0 → normalize_vector sq v = v)
    ∧ (∀ (db : StoreDB) (qv : List ℚ) (opts : SearchOptions),
        (vector_search sq db qv opts).length ≤ opts.limit) := by
  refine ⟨?_, ?_, ?_⟩
  · intro a b hab
    rw [cosine_similarity]
    rcases hab with hlen | ha | hb
    · rw [if_pos hlen]
    · by_cases hlen : a.length ≠ b.length
      · rw [if_pos hlen]
      · rw [if_neg hlen, if_pos (Or.inl ((hsq _).2 ha))]
    · by_cases hlen : a.length ≠ b.length
      · rw [if_pos hlen]
      · rw [if_neg hlen, if_pos (Or.inr ((hsq _).2 hb))]
  · intro v hv
    rw [normalize_vector]
    simp only [(hsq _).2 hv, if_pos]
  · intro db qv opts
    rw [vector_search]
    simp [List.length_take]

/-- Witness: the degenerate cases evaluated on concrete vectors with
`sq := id`. -/
theorem vector_helpers_degenerate_total_witness :
    cosine_similarity id [0, 0] [1] = 0
    ∧ normalize_vector id [0, 0] = [0, 0]
    ∧ (vector_search id emptyDB [0] ⟨20, 0, none, false⟩).length ≤ 20 := by
  have h := vector_helpers_degenerate_total id (fun x => Iff.rfl)
  exact ⟨h.1 [0, 0] [1] (Or.inl (by decide)),
    h.2.1 [0, 0] (by simp [sumSq]),
    h.2.2 emptyDB [0] ⟨20, 0, none, false⟩⟩

end QmdStore

namespace ModStore

/-- `SearchResult` dataclass of `src/store/mod.py`. -/
structure SearchResult where
  path : String
  collection : String
  score : ℚ
  lines : Nat
  title : String
  hash : String
  deriving Repr, DecidableEq

/-- One key-value pair of the insertion-ordered `scores` dict of
`_rrf_fusion`: `key` is the result hash, the value triple is
`(score, path, lines)`. -/
structure Entry where
  key : String
  score : ℚ
  path : String
  lines : Nat
  deriving Repr, DecidableEq

/-- `scores[key] = (current[0] + rrf_score, result.path, result.lines)` on
the insertion-ordered dict: update the existing entry in place (keeping
its position) or append a fresh one whose score starts from the
defaultdict's `0.0`. -/
def updateScore : List Entry → String → ℚ → String → Nat → List Entry
  | [], key, add, p, ln => [⟨key, add, p, ln⟩]
  | e :: rest, key, add, p, ln =>
    if e.key = key then ⟨key, e.score + add, p, ln⟩ :: rest
    else e :: updateScore rest key add p ln

/-- The inner loop of `_rrf_fusion` over one ranked list: rank `i` (0-based)
contributes `weight / (k + rank + 1)`. -/
def rrfStep (k w : ℚ) (m : List Entry) (results : List SearchResult) : List Entry :=
  (results.enum).foldl
    (fun m ir => updateScore m ir.2.hash (w / (k + (ir.1 : ℚ) + 1)) ir.2.path ir.2.lines) m

/-- The score-accumulation phase of `_rrf_fusion` over all ranked lists.
`weights.getD li 1` mirrors `weights[list_idx] if list_idx < len(weights)
else 1.0`, and an empty `weights` list is Python's `weights or
[1.0] * len(result_lists)` default. -/
def rrfScores (result_lists : List (List SearchResult)) (weights : List ℚ) (k : ℚ) :
    List Entry :=
  (result_lists.enum).foldl (fun m lr => rrfStep k (weights.getD lr.1 1) m lr.2) []

/-- Stable insert for descending order: `x` moves past every entry with a
strictly greater score and lands before the first entry whose score is
`≤` its own, so earlier equal-score entries keep their place. -/
def insertDesc (x : Entry) : List Entry → List Entry
  | [] => [x]
  | y :: ys => if x.score < y.score then y :: insertDesc x ys else x :: y :: ys

/-- `sorted(scores.values(), key=lambda x: x[0], reverse=True)`: the stable
descending sort by score (Python's `sorted` is stable and `reverse=True`
keeps the original order of equal keys), modelled as the stable insertion
sort, which computes exactly that unique stable result. -/
def sortByScoreDesc (m : List Entry) : List Entry := m.foldr insertDesc []

/-- The Top-Rank Bonus of `_rrf_fusion`: `+0.05` at rank 0, `+0.02` at
ranks 1 and 2, nothing later. -/
def bonus (rank : Nat) : ℚ := if rank = 0 then 1/20 else if rank < 3 then 1/50 else 0

/-- `Store._rrf_fusion`: accumulate reciprocal-rank contributions keyed by
hash, sort descending by fused score, then add the top-rank bonus while
rebuilding `SearchResult`s (the code leaves `collection`, `title`, `hash`
empty in the fused output). -/
def rrf_fusion (result_lists : List (List SearchResult)) (weights : List ℚ) (k : ℚ) :
    List SearchResult :=
  ((sortByScoreDesc (rrfScores result_lists weights k)).enum).map
    (fun re => ⟨re.2.path, "", re.2.score + bonus re.1, re.2.lines, "", ""⟩)

/-- Stable descending insert on `(result, rerank_score)` pairs, same
ordering discipline as `insertDesc`. -/
def insertPairDesc (x : SearchResult × ℚ) :
    List (SearchResult × ℚ) → List (SearchResult × ℚ)
  | [] => [x]
  | y :: ys => if x.2 < y.2 then y :: insertPairDesc x ys else x :: y :: ys

/-- `Store._rerank` after a successful LLM call: zip candidates with their
rerank scores, stable-sort descending by score, and overwrite each
result's score with its rerank score. -/
def rerankApply (candidates : List SearchResult) (scores : List ℚ) : List SearchResult :=
  ((candidates.zip scores).foldr insertPairDesc []).map
    (fun rs => { rs.1 with score := rs.2 })

/-- The fused score recorded for hash `h`: the dict lookup, `0` if absent
(the defaultdict initial value). -/
def scoreOf : List Entry → String → ℚ
  | [], _ => 0
  | e :: rest, h => if e.key = h then e.score else scoreOf rest h

/-- The keys of the `scores` dict, in insertion order. -/
def keys (m : List Entry) : List String := m.map (fun e => e.key)

end ModStore

namespace ModStore

lemma scoreOf_updateScore (m : List Entry) (key : String) (add : ℚ)
    (p : String) (ln : Nat) (h : String) :
    scoreOf (updateScore m key add p ln) h
      = scoreOf m h + (if key = h then add else 0) := by
  induction m with
  | nil => by_cases hk : key = h <;> simp [updateScore, scoreOf, hk]
  | cons e rest ih =>
    by_cases he : e.key = key
    · by_cases hk : key = h
      · simp [updateScore, scoreOf, he, hk]
      · have hek : ¬ e.key = h := he ▸ hk
        simp [updateScore, scoreOf, he, hk, hek]
    · by_cases hek : e.key = h
      · have hk : ¬ key = h := fun hh => he (by rw [hek, hh])
        rw [updateScore, if_neg he]
        simp only [scoreOf, if_pos hek, if_neg hk]
        ring
      · simp [updateScore, scoreOf, he, hek, ih]

lemma mem_keys_updateScore (m : List Entry) (key : String) (add : ℚ)
    (p : String) (ln : Nat) (x : String) :
    x ∈ keys (updateScore m key add p ln) ↔ x ∈ keys m ∨ x = key := by
  induction m with
  | nil => simp [updateScore, keys]
  | cons e rest ih =>
    simp only [keys] at ih
    by_cases he : e.key = key
    · simp only [updateScore, if_pos he, keys, List.map_cons, List.mem_cons]
      rw [he]
      tauto
    · simp only [updateScore, if_neg he, keys, List.map_cons, List.mem_cons]
      rw [ih]
      tauto

lemma nodup_keys_updateScore (m : List Entry) (key : String) (add : ℚ)
    (p : String) (ln : Nat) (hm : (keys m).Nodup) :
    (keys (updateScore m key add p ln)).Nodup := by
  induction m with
  | nil => simp [updateScore, keys]
  | cons e rest ih =>
    simp only [keys, List.map_cons, List.nodup_cons] at hm
    by_cases he : e.key = key
    · simp only [updateScore, if_pos he, keys, List.map_cons, List.nodup_cons]
      exact ⟨he ▸ hm.1, hm.2⟩
    · simp only [updateScore, if_neg he, keys, List.map_cons, List.nodup_cons]
      refine ⟨fun hmem => ?_, ih hm.2⟩
      rcases (mem_keys_updateScore rest key add p ln e.key).1 hmem with hin | heq
      · exact hm.1 (by simpa [keys] using hin)
      · exact he heq

lemma scoreOf_rrfStep_aux (k w : ℚ) (h : String) (results : List SearchResult) :
    ∀ (n : Nat) (m : List Entry),
      scoreOf ((results.enumFrom n).foldl
          (fun m ir => updateScore m ir.2.hash (w / (k + (ir.1 : ℚ) + 1)) ir.2.path ir.2.lines)
          m) h
        = scoreOf m h + ((results.enumFrom n).map
            (fun ir => if ir.2.hash = h then w / (k + (ir.1 : ℚ) + 1) else 0)).sum := by
  induction results with
  | nil => intro n m; simp
  | cons r tl ih =>
    intro n m
    rw [List.enumFrom_cons]
    simp only [List.foldl_cons, List.map_cons, List.sum_cons]
    rw [ih (n + 1), scoreOf_updateScore]
    ring

lemma scoreOf_rrfStep (k w : ℚ) (m : List Entry) (results : List SearchResult)
    (h : String) :
    scoreOf (rrfStep k w m results) h
      = scoreOf m h + ((results.enum).map
          (fun ir => if ir.2.hash = h then w / (k + (ir.1 : ℚ) + 1) else 0)).sum := by
  rw [rrfStep, List.enum_eq_enumFrom]
  exact scoreOf_rrfStep_aux k w h results 0 m

lemma scoreOf_rrfScores_aux (k : ℚ) (weights : List ℚ) (h : String)
    (ls : List (List SearchResult)) :
    ∀ (n : Nat) (m : List Entry),
      scoreOf ((ls.enumFrom n).foldl
          (fun m lr => rrfStep k (weights.getD lr.1 1) m lr.2) m) h
        = scoreOf m h + ((ls.enumFrom n).map (fun lr =>
            ((lr.2.enum).map (fun ir =>
              if ir.2.hash = h then weights.getD lr.1 1 / (k + (ir.1 : ℚ) + 1) else 0)).sum)).sum := by
  induction ls with
  | nil => intro n m; simp
  | cons l tl ih =>
    intro n m
    rw [List.enumFrom_cons]
    simp only [List.foldl_cons, List.map_cons, List.sum_cons]
    rw [ih (n + 1), scoreOf_rrfStep]
    ring

lemma nodup_keys_foldl_update (ps : List (Nat × SearchResult)) (k w : ℚ) :
    ∀ m : List Entry, (keys m).Nodup →
      (keys (ps.foldl
        (fun m ir => updateScore m ir.2.hash (w / (k + (ir.1 : ℚ) + 1)) ir.2.path ir.2.lines)
        m)).Nodup := by
  induction ps with
  | nil => intro m hm; simpa using hm
  | cons p tl ih =>
    intro m hm
    exact ih _ (nodup_keys_updateScore m p.2.hash _ p.2.path p.2.lines hm)

lemma nodup_keys_rrfScores (result_lists : List (List SearchResult))
    (weights : List ℚ) (k : ℚ) :
    (keys (rrfScores result_lists weights k)).Nodup := by
  rw [rrfScores]
  generalize (result_lists.enum) = qs
  have main : ∀ (qs : List (Nat × List SearchResult)) (m : List Entry), (keys m).Nodup →
      (keys (qs.foldl (fun m lr => rrfStep k (weights.getD lr.1 1) m lr.2) m)).Nodup := by
    intro qs
    induction qs with
    | nil => intro m hm; simpa using hm
    | cons q tl ih =>
      intro m hm
      exact ih _ (by simp only [rrfStep]; exact nodup_keys_foldl_update _ k _ m hm)
  exact main qs [] (by simp [keys])

/-- C1 amended: the fusion step of `mod.py`'s `_rrf_fusion` assigns each
content hash `h` the score `Σ_lists weight_list / (k + rank + 1)` with
`k = 60`, summing the reciprocal-rank contribution of every rank at which
`h` occurs in every list (a list without `h` contributes an all-zero
inner sum), and nothing else; and the `scores` dict holds at most one
entry per hash, so results with different paths but one content hash are
merged into a single fused entry carrying that summed score.  The other
cited fusion, `store.py`'s `QmdStore.hybrid_search`, does not have this
property: it keys by `doc_id` and retains the raw BM25 score (see its
counterexample in the `QmdStore` namespace). -/
theorem rrf_fusion_score_formula (result_lists : List (List SearchResult))
    (weights : List ℚ) (h : String) :
    scoreOf (rrfScores result_lists weights 60) h
      = ((result_lists.enum).map (fun lr =>
          ((lr.2.enum).map (fun ir =>
            if ir.2.hash = h then weights.getD lr.1 1 / (60 + (ir.1 : ℚ) + 1) else 0)).sum)).sum
    ∧ (keys (rrfScores result_lists weights 60)).Nodup := by
  constructor
  · rw [rrfScores, List.enum_eq_enumFrom]
    simpa [scoreOf] using scoreOf_rrfScores_aux 60 weights h result_lists 0 []
  · exact nodup_keys_rrfScores result_lists weights 60

end ModStore

namespace ModStore

/-- C9 amended: `mod.py`'s `_rrf_fusion` sorts the fused entries
descending by score and then adds exactly `+0.05` to the result at rank 0
and exactly `+0.02` at ranks 1 and 2, leaving every later score unchanged
(rank `i` receives the pre-bonus sorted score plus the rank-indexed
increment, zero from rank 3 on); and `_rerank` overwrites candidate
scores with the sorted rerank scores — the bonus is applied only inside
`_rrf_fusion`, never again after reranking or truncation.  The other
cited fusion, `store.py`'s `QmdStore.hybrid_search`, applies no top-rank
bonus at all (see its counterexample in the `QmdStore` namespace). -/
theorem rrf_fusion_top_rank_bonus (result_lists : List (List SearchResult))
    (weights : List ℚ) :
    (∀ i : Nat,
      ((rrf_fusion result_lists weights 60)[i]?).map (fun r => r.score)
        = ((sortByScoreDesc (rrfScores result_lists weights 60))[i]?).map
            (fun e => e.score + (if i = 0 then 1/20 else if i < 3 then 1/50 else 0)))
    ∧ (∀ (cands : List SearchResult) (scores : List ℚ),
        (rerankApply cands scores).map (fun r => r.score)
          = ((cands.zip scores).foldr insertPairDesc []).map (fun rs => rs.2)) := by
  constructor
  · intro i
    rw [rrf_fusion, List.getElem?_map, List.getElem?_enum]
    cases hx : (sortByScoreDesc (rrfScores result_lists weights 60))[i]? with
    | none => simp
    | some e => simp [bonus]
  · intro cands scores
    simp [rerankApply, List.map_map]

end ModStore

namespace ModStore

/-- `SearchOptions` dataclass of `src/store/mod.py`. -/
structure SearchOptions where
  limit : Nat
  min_score : ℚ
  collection : Option String
  search_all : Bool
  deriving Repr, DecidableEq

/-- The columns of the `documents_fts` FTS5 virtual table in `mod.py`'s
schema (`filepath, title, body`), plus the implicit FTS5 `rowid`. -/
def documents_fts_columns : List String := ["rowid", "filepath", "title", "body"]

/-- The column names referenced by `mod.py`'s `bm25_search` statement
`SELECT rowid, bm25(documents_fts), title, path FROM documents_fts WHERE
documents_fts MATCH ? AND active = 1 ORDER BY bm25(documents_fts) LIMIT ?`
— it names `path` and `active` (and the bound MATCH string
`"<query> NOT active:0"` names `active` as well). -/
def bm25_referenced_columns : List String := ["rowid", "title", "path", "active"]

set_option linter.unusedVariables false in
/-- `Store.bm25_search` of `src/store/mod.py`: SQLite prepares the
statement before running it, and since `path` and `active` are not
columns of `documents_fts(filepath, title, body)`, preparation fails with
`OperationalError("no such column")` on every call — the per-collection
row loop below the `execute` is unreachable (hence the empty list in the
dead branch). -/
def bm25_search (query : String) (options : SearchOptions) :
    Except SqlError (List SearchResult) :=
  if bm25_referenced_columns.all (fun c => documents_fts_columns.contains c) then
    Except.ok []
  else Except.error SqlError.operational

/-- `Store.vector_search` as reached from `hybrid_search`, which passes no
LLM: with `backend = "qmd_builtin"`, `_vector_search_sqlite` runs with
`llm = None`, `query_vector` stays `None`, and the uncaught fallback
`return self.bm25_search(query, options)` executes. -/
def vector_search (query : String) (options : SearchOptions) :
    Except SqlError (List SearchResult) :=
  bm25_search query options

/-- `Store.hybrid_search` of `src/store/mod.py`: BM25 leg, vector leg
(degrading to BM25), RRF fusion at `k = 60`, top-30 candidates.  Neither
the first `bm25_search` call nor the fallback inside `vector_search` is
wrapped in a handler, so a raised `OperationalError` propagates out of
the query. -/
def hybrid_search (query : String) (options : SearchOptions) :
    Except SqlError (List SearchResult) := do
  let bm25_results ← bm25_search query options
  let vector_results ← vector_search query options
  pure ((rrf_fusion [bm25_results, vector_results] [] 60).take 30)

/-- C8: the BM25 SELECT references columns `path` and `active` that do
not exist on `documents_fts`, so `bm25_search` raises `OperationalError`
on every call, and `hybrid_search` — whose very first line calls it with
no handler — raises on every query instead of returning a keyword-only
result list: the claimed graceful degradation never happens because the
keyword leg itself is broken SQL. -/
theorem hybrid_search_always_raises :
    ("path" ∉ documents_fts_columns)
    ∧ ("active" ∉ documents_fts_columns)
    ∧ (∀ (query : String) (options : SearchOptions),
        bm25_search query options = Except.error SqlError.operational
        ∧ hybrid_search query options = Except.error SqlError.operational) := by
  refine ⟨by decide, by decide, fun q o => ⟨rfl, rfl⟩⟩

end ModStore

namespace QmdRouter

/-- `EmbeddingResult` of `qmd/llm/router.py` (the `Provider` enum is
modelled by its string value `"local"`/`"remote"`). -/
structure EmbeddingResult where
  embeddings : List (List ℚ)
  provider : String
  model : String
  deriving Repr, DecidableEq

/-- `Router.embed` of `qmd/llm/router.py` (lines 184-190): `if
self.local_embedder: return self.local_embedder.embed(texts)` — there is
no try/except, so whatever the constructed local embedder's attempt does
(success or raised exception, modelled as an `Except` outcome) is the
call's outcome, verbatim; only when no local embedder was constructed
does control reach the remote branch, and with neither constructed the
call raises `RuntimeError("No embedder available")`. -/
def embed (local_embedder remote_embedder : Option (Except Unit EmbeddingResult)) :
    Except Unit EmbeddingResult :=
  match local_embedder with
  | some attempt => attempt
  | none =>
    match remote_embedder with
    | some attempt => attempt
    | none => Except.error ()

/-- `Router.rerank` of `qmd/llm/router.py` (lines 192-198): same shape as
`embed`, returning the score list of the first constructed reranker. -/
def rerank (local_reranker remote_reranker : Option (Except Unit (List ℚ))) :
    Except Unit (List ℚ) :=
  match local_reranker with
  | some attempt => attempt
  | none =>
    match remote_reranker with
    | some attempt => attempt
    | none => Except.error ()

/-- C7 counterexample: in the cited `qmd/llm/router.py` `Router.embed`, a
constructed local embedder whose attempt fails makes the whole call raise
— the configured, working remote embedder is never consulted, and no
result tagged `provider="remote"` is returned, refuting the claimed
"falls through to the configured remote provider ... on any failure". -/
theorem embed_no_runtime_fallback_cex :
    embed (some (Except.error ()))
        (some (Except.ok ⟨[[1, 2]], "remote", "text-embedding-3-small"⟩))
      = Except.error ()
    ∧ (Except.error () : Except Unit EmbeddingResult)
        ≠ Except.ok ⟨[[1, 2]], "remote", "text-embedding-3-small"⟩ :=
  ⟨rfl, by simp⟩

end QmdRouter

namespace Router

/-- One slot of `config.models` (`embed` or `rerank`): the configured local
and remote model identifiers; `none` models a falsy/absent setting. -/
structure ModelSlot where
  localModel : Option String
  remoteModel : Option String
  deriving Repr, DecidableEq

/-- `EmbeddingResult` dataclass of `src/llm/router.py`. -/
structure EmbeddingResult where
  embeddings : List (List ℚ)
  provider : String
  model : String
  deriving Repr, DecidableEq

/-- `Router.embed` of `src/llm/router.py`: if a local model is configured,
attempt it and on success return the result tagged `provider="local"`; any
exception is caught and control falls through.  Then, if a remote model is
configured, attempt it and on success tag `provider="remote"`; on failure
fall through.  With no branch left, raise (`RuntimeError("No embedder
available")`).  The two provider attempts are modelled as `Except` values
(`.error` standing for any raised exception). -/
def embed (cfg : Option ModelSlot)
    (localAttempt remoteAttempt : Except Unit (List (List ℚ))) :
    Except Unit EmbeddingResult :=
  let viaLocal : Option EmbeddingResult :=
    match cfg with
    | some c =>
      match c.localModel with
      | some lm =>
        match localAttempt with
        | .ok em => some ⟨em, "local", lm⟩
        | .error _ => none
      | none => none
    | none => none
  match viaLocal with
  | some r => .ok r
  | none =>
    match cfg with
    | some c =>
      match c.remoteModel with
      | some _ =>
        match remoteAttempt with
        | .ok em => .ok ⟨em, "remote", c.remoteModel.getD ""⟩
        | .error _ => .error ()
      | none => .error ()
    | none => .error ()

/-- `Router.rerank` of `src/llm/router.py`: identical fallback structure —
local attempt (if configured, exceptions caught), then remote attempt (if
configured, exceptions caught), then `RuntimeError("No reranker
available")`; returns the score list of whichever attempt succeeded. -/
def rerank (cfg : Option ModelSlot)
    (localAttempt remoteAttempt : Except Unit (List ℚ)) :
    Except Unit (List ℚ) :=
  let viaLocal : Option (List ℚ) :=
    match cfg with
    | some c =>
      match c.localModel with
      | some _ =>
        match localAttempt with
        | .ok sc => some sc
        | .error _ => none
      | none => none
    | none => none
  match viaLocal with
  | some r => .ok r
  | none =>
    match cfg with
    | some c =>
      match c.remoteModel with
      | some _ =>
        match remoteAttempt with
        | .ok sc => .ok sc
        | .error _ => .error ()
      | none => .error ()
    | none => .error ()

/-- C7 amended: in `src/llm/router.py`, `Router.embed` tries the
configured local provider first (a local success is tagged
`provider="local"`); when the local provider is unconfigured or its
attempt fails for any reason, it falls through to the configured remote
provider, whose success is tagged `provider="remote"`; when neither
provider is configured or every configured attempt fails, it raises the
no-provider error, and `Router.rerank` follows the same fallback order
(a configured local reranker's success is returned, a missing or failing
one falls through to remote, exhaustion raises).  In the other cited
router, `qmd/llm/router.py`, the fallback happens only at construction
time: a constructed local provider's attempt outcome — success or raised
exception — is returned verbatim (`QmdRouter.embed/rerank` below), the
remote provider being consulted only when no local one was constructed. -/
theorem router_embed_rerank_fallback (c : ModelSlot)
    (la ra : Except Unit (List (List ℚ))) (lra rra : Except Unit (List ℚ)) :
    (∀ lm em, c.localModel = some lm → la = .ok em →
        embed (some c) la ra = .ok ⟨em, "local", lm⟩)
    ∧ (∀ rm em, (c.localModel = none ∨ la = .error ()) →
        c.remoteModel = some rm → ra = .ok em →
        embed (some c) la ra = .ok ⟨em, "remote", rm⟩)
    ∧ ((c.localModel = none ∨ la = .error ()) →
        (c.remoteModel = none ∨ ra = .error ()) →
        embed (some c) la ra = .error ())
    ∧ embed none la ra = .error ()
    ∧ (∀ lm sc, c.localModel = some lm → lra = .ok sc →
        rerank (some c) lra rra = .ok sc)
    ∧ (∀ sc, (c.localModel = none ∨ lra = .error ()) →
        (∃ rm, c.remoteModel = some rm) → rra = .ok sc →
        rerank (some c) lra rra = .ok sc)
    ∧ ((c.localModel = none ∨ lra = .error ()) →
        (c.remoteModel = none ∨ rra = .error ()) →
        rerank (some c) lra rra = .error ())
    ∧ (∀ (att : Except Unit QmdRouter.EmbeddingResult)
        (r : Option (Except Unit QmdRouter.EmbeddingResult)),
        QmdRouter.embed (some att) r = att)
    ∧ (∀ att : Except Unit QmdRouter.EmbeddingResult,
        QmdRouter.embed none (some att) = att)
    ∧ QmdRouter.embed none none = Except.error ()
    ∧ (∀ (att : Except Unit (List ℚ)) (r : Option (Except Unit (List ℚ))),
        QmdRouter.rerank (some att) r = att)
    ∧ (∀ att : Except Unit (List ℚ), QmdRouter.rerank none (some att) = att)
    ∧ QmdRouter.rerank none none = Except.error () := by
  refine ⟨?_, ?_, ?_, rfl, ?_, ?_, ?_, fun att r => rfl, fun att => rfl, rfl,
    fun att r => rfl, fun att => rfl, rfl⟩
  · intro lm em hl hla
    simp [embed, hl, hla]
  · intro rm em hloc hrm hra
    cases hlm : c.localModel with
    | none => simp [embed, hlm, hrm, hra]
    | some lm =>
      rcases hloc with h | h
      · rw [hlm] at h; cases h
      · simp [embed, hlm, hrm, hra, h]
  · intro hloc hrem
    cases hlm : c.localModel with
    | none =>
      cases hrm : c.remoteModel with
      | none => simp [embed, hlm, hrm]
      | some rm =>
        rcases hrem with h2 | h2
        · rw [hrm] at h2; cases h2
        · simp [embed, hlm, hrm, h2]
    | some lm =>
      rcases hloc with h | h
      · rw [hlm] at h; cases h
      · cases hrm : c.remoteModel with
        | none => simp [embed, hlm, hrm, h]
        | some rm =>
          rcases hrem with h2 | h2
          · rw [hrm] at h2; cases h2
          · simp [embed, hlm, hrm, h, h2]
  · intro lm sc hl hla
    simp [rerank, hl, hla]
  · intro sc hloc hrm hra
    obtain ⟨rm, hrm⟩ := hrm
    cases hlm : c.localModel with
    | none => simp [rerank, hlm, hrm, hra]
    | some lm =>
      rcases hloc with h | h
      · rw [hlm] at h; cases h
      · simp [rerank, hlm, hrm, hra, h]
  · intro hloc hrem
    cases hlm : c.localModel with
    | none =>
      cases hrm : c.remoteModel with
      | none => simp [rerank, hlm, hrm]
      | some rm =>
        rcases hrem with h2 | h2
        · rw [hrm] at h2; cases h2
        · simp [rerank, hlm, hrm, h2]
    | some lm =>
      rcases hloc with h | h
      · rw [hlm] at h; cases h
      · cases hrm : c.remoteModel with
        | none => simp [rerank, hlm, hrm, h]
        | some rm =>
          rcases hrem with h2 | h2
          · rw [hrm] at h2; cases h2
          · simp [rerank, hlm, hrm, h, h2]

/-- Witness: a failing local attempt with a working remote embedder yields
`provider="remote"`; with both attempts failing, the no-provider error. -/
theorem router_embed_rerank_fallback_witness :
    embed (some ⟨some "embed.gguf", some "text-embedding-3-small"⟩)
        (Except.error ()) (Except.ok [[1, 2]])
      = Except.ok ⟨[[1, 2]], "remote", "text-embedding-3-small"⟩
    ∧ embed (some ⟨some "embed.gguf", some "text-embedding-3-small"⟩)
        (Except.error ()) (Except.error ()) = Except.error ()
    ∧ rerank (some ⟨some "rerank.gguf", some "cohere-rerank"⟩)
        (Except.ok [1, 0]) (Except.error ()) = Except.ok [1, 0]
    ∧ rerank (some ⟨some "rerank.gguf", some "cohere-rerank"⟩)
        (Except.error ()) (Except.ok [1, 0]) = Except.ok [1, 0] :=
  ⟨(router_embed_rerank_fallback ⟨some "embed.gguf", some "text-embedding-3-small"⟩
      (Except.error ()) (Except.ok [[1, 2]]) (Except.ok []) (Except.ok [])).2.1
      "text-embedding-3-small" [[1, 2]] (Or.inr rfl) rfl rfl,
    (router_embed_rerank_fallback ⟨some "embed.gguf", some "text-embedding-3-small"⟩
      (Except.error ()) (Except.error ()) (Except.ok []) (Except.ok [])).2.2.1
      (Or.inr rfl) (Or.inr rfl),
    (router_embed_rerank_fallback ⟨some "rerank.gguf", some "cohere-rerank"⟩
      (Except.ok []) (Except.ok []) (Except.ok [1, 0]) (Except.error ())).2.2.2.2.1
      "rerank.gguf" [1, 0] rfl rfl,
    (router_embed_rerank_fallback ⟨some "rerank.gguf", some "cohere-rerank"⟩
      (Except.ok []) (Except.ok []) (Except.error ()) (Except.ok [1, 0])).2.2.2.2.2.1
      [1, 0] (Or.inr rfl) ⟨"cohere-rerank", rfl⟩ rfl⟩

end Router
